import Mathlib

/-!
Shallow embedding of `webcompat/api/endpoints.py`, the Flask blueprint that
proxies XHR requests to the GitHub issue tracker.  Each route is modelled as a
pure function from the request data (an authentication flag `g.user`, the
query parameters `request.args`, the raw body `request.data`) and an upstream
collaborator `api_request` to the produced response together with the list of
outbound upstream calls that were made.
-/

/-- A parameter value held in a werkzeug MultiDict: query-string values are
strings, but the endpoints also insert integers (milestone ids, per_page). -/
inductive PVal where
  | str (s : String)
  | int (n : Int)
deriving DecidableEq

/-- A werkzeug MultiDict, modelled as an ordered list of key/value pairs. -/
abbrev MultiDict := List (String × PVal)

/-- First value stored for a key (werkzeug `get` and subscripting). -/
def mdGet : MultiDict → String → Option PVal
  | [], _ => none
  | (k', v) :: rest, k => if k' = k then some v else mdGet rest k

/-- werkzeug `add`: append a further value for the key. -/
def mdAdd (d : MultiDict) (k : String) (v : PVal) : MultiDict := d ++ [(k, v)]

/-- Drop every entry stored under the key. -/
def mdRemove : MultiDict → String → MultiDict
  | [], _ => []
  | (k', v) :: rest, k =>
    if k' = k then mdRemove rest k else (k', v) :: mdRemove rest k

/-- werkzeug item assignment: replace every value for the key by the one
given value. -/
def mdSet (d : MultiDict) (k : String) (v : PVal) : MultiDict :=
  mdRemove d k ++ [(k, v)]

/-- werkzeug `update`: extends the key lists rather than replacing them, so
the new pairs are appended to the dict. -/
def mdUpdate (d : MultiDict) (kvs : List (String × PVal)) : MultiDict := d ++ kvs

/-- The first value for the key when it is a string (query-string values). -/
def mdGetStr (d : MultiDict) (k : String) : Option String :=
  match mdGet d k with
  | some (.str s) => some s
  | _ => none

/-- Python truthiness of `params.get(k)`: `None` and the empty string (and the
integer zero) are falsy. -/
def pvTruthy : Option PVal → Bool
  | none => false
  | some (.str s) => !(s = "")
  | some (.int n) => !(n = 0)

/-- Python truthiness filter on an optional string: `s or t` keeps `s` exactly
when it is non-empty. -/
def strTruthy : Option String → Option String
  | some s => if s = "" then none else some s
  | none => none

/-- Result triple returned by the upstream collaborator `api_request`:
`(content, status code, headers)`. -/
structure UpRes where
  content : String
  status : Nat
  headers : List (String × String)
deriving DecidableEq

/-- One outbound call to the upstream collaborator
`api_request(method, path, params, data, mime_type)`. -/
structure ApiCall where
  method : String
  path : String
  params : MultiDict
  data : Option String
  mime : Option String
deriving DecidableEq

/-- The upstream collaborator: a deterministic response for every call. -/
abbrev Upstream := ApiCall → UpRes

/-- What a route hands back to Flask.  `plain` relays an upstream triple
verbatim; `custom` is a literal `(content, status, headers)` tuple built by the
route; `htmlComments` is the result of the external `get_html_comments`
template rendering applied to an upstream triple; `aborted` is `abort(code)`;
`raised` is an uncaught Python exception escaping the route. -/
inductive Response where
  | plain (r : UpRes)
  | custom (content : String) (status : Nat) (headers : List (String × String))
  | htmlComments (r : UpRes)
  | aborted (code : Nat)
  | raised (msg : String)
deriving DecidableEq

/-- A Python runtime value, just rich enough to express the comparison
`comments_data[1:2] != 304` performed by `proxy_comments`. -/
inductive PyVal where
  | int (n : Int)
  | str (s : String)
  | hdrs (h : List (String × String))
  | tuple (xs : List PyVal)

mutual

/-- Python `==` on runtime values: values of different types are unequal;
tuples compare pointwise. -/
def pyEq : PyVal → PyVal → Bool
  | .int a, .int b => a == b
  | .str a, .str b => a == b
  | .hdrs a, .hdrs b => a == b
  | .tuple a, .tuple b => pyEqL a b
  | _, _ => false

/-- Pointwise Python `==` on tuple contents. -/
def pyEqL : List PyVal → List PyVal → Bool
  | [], [] => true
  | x :: xs, y :: ys => pyEq x y && pyEqL xs ys
  | _, _ => false

end

/-- Python `!=`. -/
def pyNe (a b : PyVal) : Bool := !pyEq a b

/-- Python slicing `t[a:b]` of a tuple. -/
def pySlice (v : PyVal) (a b : Nat) : PyVal :=
  match v with
  | .tuple xs => .tuple ((xs.drop a).take (b - a))
  | x => x

/-- The `(content, status, headers)` triple returned by `api_request`, as the
Python tuple value it is inside `proxy_comments`. -/
def commentsTuple (r : UpRes) : PyVal :=
  .tuple [.str r.content, .int (r.status : Int), .hdrs r.headers]

/-- A JSON value as decoded by `json.loads`; numbers are modelled as
integers (the milestones exchanged here are integral). -/
inductive Json where
  | null
  | bool (b : Bool)
  | num (n : Int)
  | str (s : String)
  | arr (xs : List Json)
  | obj (fields : List (String × Json))

/-- Key lookup in a decoded JSON object (first match). -/
def lookupJ : List (String × Json) → String → Option Json
  | [], _ => none
  | (k', v) :: rest, k => if k' = k then some v else lookupJ rest k

/-- Python subscripting `j[k]` on a decoded JSON value: `none` models the
uncaught KeyError (key absent) or TypeError (not a dict). -/
def jsonGetKey : Json → String → Option Json
  | .obj fields, k => lookupJ fields k
  | _, _ => none

/-- Python `len` of a decoded JSON value (`0` where `len` would raise). -/
def jsonLen : Json → Nat
  | .obj fields => fields.length
  | .arr xs => xs.length
  | .str s => s.length
  | _ => 0

/-- Python `==` between a decoded JSON value and a configured milestone id;
`True == 1` and `False == 0` hold in Python. -/
def jsonIsInt (j : Json) (n : Int) : Bool :=
  match j with
  | .num m => m == n
  | .bool b => (if b then (1 : Int) else 0) == n
  | _ => false

/-- Python `==` between a decoded JSON value and a configured state string. -/
def jsonIsStr (j : Json) (s : String) : Bool :=
  match j with
  | .str t => t == s
  | _ => false

/-- Whether the decoded `(milestone, state)` pair equals one configured
`(id, state)` pair, with Python equality semantics. -/
def statusMatches (m s : Json) (p : Int × String) : Bool :=
  jsonIsInt m p.1 && jsonIsStr s p.2

/-- The HTTP verb of the inbound request, as far as the routes inspect it. -/
inductive Method where
  | get
  | post
deriving DecidableEq

/-- The process-wide, read-only configuration consumed by the blueprint:
`ISSUES_REPO_URI`, `PRIVATE_REPO_URI`, `AUTOCLOSED_MILESTONE_ID`, the
`STATUSES` table (name, milestone id, mandatory state) and `OPEN_STATUSES`. -/
structure Config where
  issuesPath : String
  privatePath : String
  autoclosedId : Int
  statuses : List (String × Int × String)
  openStatuses : List String
deriving DecidableEq

/-- `REPO_PATH = ISSUES_PATH[:-7]`. -/
def repoPath (cfg : Config) : String := cfg.issuesPath.dropRight 7

/-- `JSON_MIME_HTML`. -/
def JSON_MIME_HTML : String := "application/vnd.github.v3.html+json"

/-- `HTML_MIME`. -/
def HTML_MIME : String := "text/html"

/-- The list built by `edit_issue`: each configured status name contributes its
`(milestone id, mandatory state)` pair. -/
def validStatuses (cfg : Config) : List (Int × String) :=
  cfg.statuses.map (fun st => (st.2.1, st.2.2))

/-- Dict lookup `STATUSES[name]`. -/
def statusLookup : List (String × Int × String) → String → Option (Int × String)
  | [], _ => none
  | (n, v) :: rest, k => if n = k then some v else statusLookup rest k

/-- The path `repos/{ISSUES_PATH}/{number}`. -/
def issuePath (cfg : Config) (number : Nat) : String :=
  "repos/" ++ cfg.issuesPath ++ "/" ++ toString number

/-- The path `repos/{ISSUES_PATH}/{number}/comments`. -/
def commentsPath (cfg : Config) (number : Nat) : String :=
  issuePath cfg number ++ "/comments"

/-- Modelled from the spec: `get_comment_data` lives in
`webcompat/helpers.py`, which is not part of this tree; it decodes the raw
request body into the comment payload forwarded upstream.  No claim inspects
its output, so it is modelled as passing the body through. -/
def get_comment_data (raw : String) : String := raw

/-- Modelled from the spec: `get_response_headers` lives in
`webcompat/helpers.py`, which is not part of this tree; per the spec it relays
the upstream response's caching headers with the content type set to the given
mime type. -/
def get_response_headers (r : UpRes) (mime : String) : List (String × String) :=
  ("content-type", mime) :: r.headers.filter (fun h => !(h.1 = "content-type"))

/-- Modelled from the spec: `normalize_api_params` lives in
`webcompat/helpers.py`, which is not part of this tree; per the spec it only
translates parameter names from issues-list conventions to search-API
conventions, leaving all values - in particular the value of `q` - unchanged.
It is modelled as the identity on the parameter list. -/
def normalize_api_params (params : MultiDict) : MultiDict := params

/-- `proxy_issue`: GET `/api/issues/<number>`. -/
def proxy_issue (cfg : Config) (number : Nat) (u : Upstream) :
    Response × List ApiCall :=
  let call : ApiCall := ⟨"get", issuePath cfg number, [], none, some JSON_MIME_HTML⟩
  (.plain (u call), [call])

/-- The single PATCH call forwarded by `edit_issue`. -/
def editCall (cfg : Config) (number : Nat) (raw : String) : ApiCall :=
  ⟨"patch", issuePath cfg number, [], some raw, none⟩

/-- `edit_issue`: PATCH `/api/issues/<number>/edit`.  `body` is the result of
`json.loads(request.data)` (`none` when decoding raises). -/
def edit_issue (cfg : Config) (auth : Bool) (number : Nat) (raw : String)
    (body : Option Json) (u : Upstream) : Response × List ApiCall :=
  if !auth then (.aborted 403, [])
  else
    match body with
    | none => (.raised "JSONDecodeError", [])
    | some patch_data =>
      match jsonGetKey patch_data "milestone", jsonGetKey patch_data "state" with
      | some m, some s =>
        if (validStatuses cfg).any (statusMatches m s) ∧ jsonLen patch_data = 2 then
          let r := u (editCall cfg number raw)
          (.custom r.content r.status [("content-type", JSON_MIME_HTML)],
           [editCall cfg number raw])
        else (.aborted 403, [])
      | _, _ => (.raised "KeyError/TypeError", [])

/-- The effective `params` inside `get_search_results`:
`params = params or request.args.copy()`. -/
def effectiveParams (params0 : Option MultiDict) (reqArgs : MultiDict) : MultiDict :=
  match params0 with
  | some p => if p.isEmpty then reqArgs else p
  | none => reqArgs

/-- `get_search_results`: GET `/api/issues/search`, also called internally by
`proxy_issues`.  `query_string` and `params0` are the optional arguments;
`reqArgs` is `request.args.copy()`. -/
def get_search_results (cfg : Config) (query_string : Option String)
    (params0 : Option MultiDict) (reqArgs : MultiDict) (u : Upstream) :
    Response × List ApiCall :=
  let params := effectiveParams params0 reqArgs
  match (strTruthy query_string).orElse (fun _ => strTruthy (mdGetStr params "q")) with
  | none => (.aborted 404, [])
  | some q0 =>
    let q1 := q0 ++ " repo:" ++ repoPath cfg
    let params1 := mdSet params "q" (.str q1)
    let q2 := (mdGetStr params1 "q").getD "" ++ " is:issue"
    let params2 := mdSet params1 "q" (.str q2)
    let call : ApiCall :=
      ⟨"get", "search/issues", normalize_api_params params2, none, some JSON_MIME_HTML⟩
    (.plain (u call), [call])

/-- `proxy_issues`: GET `/api/issues`. -/
def proxy_issues (cfg : Config) (auth : Bool) (params : MultiDict)
    (u : Upstream) : Response × List ApiCall :=
  if auth = true ∧ pvTruthy (mdGet params "q") = true then
    get_search_results cfg (mdGetStr params "q") (some params) params u
  else if pvTruthy (mdGet params "q") = true then (.aborted 404, [])
  else
    let call : ApiCall := ⟨"get", "repos/" ++ cfg.issuesPath, params, none, none⟩
    (.plain (u call), [call])

/-- `proxy_autoclosed`: GET `/api/private`.  The milestone parameter is added
before the authentication check, but no upstream call is made without it. -/
def proxy_autoclosed (cfg : Config) (auth : Bool) (params : MultiDict)
    (u : Upstream) : Response × List ApiCall :=
  let params1 := mdAdd params "milestone" (.int cfg.autoclosedId)
  if !auth then (.aborted 404, [])
  else
    let call : ApiCall := ⟨"get", "repos/" ++ cfg.privatePath, params1, none, none⟩
    (.plain (u call), [call])

/-- The outbound parameters built by `get_user_activity_issues`:
`state` is set to `all` first, then either the label filter or the
caller-named parameter is set. -/
def uaParams (username parameter : String) (params : MultiDict) : MultiDict :=
  if parameter = "needsinfo" then
    mdSet (mdSet params "state" (.str "all")) "labels"
      (.str ("status-needsinfo-" ++ username))
  else
    mdSet (mdSet params "state" (.str "all")) parameter (.str username)

/-- `get_user_activity_issues`: GET `/api/issues/<username>/<parameter>`. -/
def get_user_activity_issues (cfg : Config) (auth : Bool)
    (username parameter : String) (params : MultiDict) (u : Upstream) :
    Response × List ApiCall :=
  if !auth then (.aborted 401, [])
  else
    let call : ApiCall :=
      ⟨"get", "repos/" ++ cfg.issuesPath, uaParams username parameter params,
       none, none⟩
    (.plain (u call), [call])

/-- The upstream call made by `get_issue_category` for a configured open
category with milestone id `i`. -/
def categoryOpenCall (cfg : Config) (params : MultiDict) (i : Int) : ApiCall :=
  ⟨"get", "repos/" ++ cfg.issuesPath, mdAdd params "milestone" (.int i), none, none⟩

/-- The upstream call made by `get_issue_category` for the literal category
`closed`. -/
def categoryClosedCall (cfg : Config) (params : MultiDict) : ApiCall :=
  ⟨"get", "repos/" ++ cfg.issuesPath, mdSet params "state" (.str "closed"), none, none⟩

/-- `get_issue_category`: GET `/api/issues/category/<issue_category>`. -/
def get_issue_category (cfg : Config) (cat : String) (params : MultiDict)
    (u : Upstream) : Response × List ApiCall :=
  if cat ∈ cfg.openStatuses then
    match statusLookup cfg.statuses cat with
    | some pr => (.plain (u (categoryOpenCall cfg params pr.1)),
                  [categoryOpenCall cfg params pr.1])
    | none => (.raised "KeyError", [])
  else if cat = "closed" then
    (.plain (u (categoryClosedCall cfg params)), [categoryClosedCall cfg params])
  else (.aborted 404, [])

/-- `proxy_comments`: GET/POST `/api/issues/<number>/comments`. -/
def proxy_comments (cfg : Config) (auth : Bool) (method : Method) (number : Nat)
    (params : MultiDict) (raw : String) (u : Upstream) :
    Response × List ApiCall :=
  if method = Method.post ∧ auth = true then
    let call : ApiCall :=
      ⟨"post", commentsPath cfg number, params, some (get_comment_data raw),
       some JSON_MIME_HTML⟩
    (.htmlComments (u call), [call])
  else
    let params1 := mdUpdate params [("per_page", .int 100)]
    let call : ApiCall :=
      ⟨"get", commentsPath cfg number, params1, none, some JSON_MIME_HTML⟩
    let comments_data := u call
    let comments_status := pySlice (commentsTuple comments_data) 1 2
    if pyNe comments_status (.int 304) then
      (.htmlComments comments_data, [call])
    else
      (.custom "" 304 (get_response_headers comments_data HTML_MIME), [call])

/-- `modify_labels`: POST `/api/issues/<number>/labels`. -/
def modify_labels (cfg : Config) (auth : Bool) (number : Nat) (raw : String)
    (u : Upstream) : Response × List ApiCall :=
  if auth then
    let call : ApiCall := ⟨"put", issuePath cfg number ++ "/labels", [], some raw, none⟩
    (.plain (u call), [call])
  else (.aborted 403, [])

/-- `get_repo_labels`: GET `/api/issues/labels`. -/
def get_repo_labels (cfg : Config) (params : MultiDict) (u : Upstream) :
    Response × List ApiCall :=
  let call : ApiCall := ⟨"get", "repos/" ++ repoPath cfg ++ "/labels", params, none, none⟩
  (.plain (u call), [call])

/-- A concrete configuration in the shape webcompat deploys with, used to
exercise the routes on closed inputs. -/
def sampleCfg : Config :=
  ⟨"webcompat/web-bugs/issues", "webcompat/web-bugs-private/issues", 77,
   [("needsinfo", 2, "open"), ("actionable", 3, "open"), ("autoclosed", 77, "closed")],
   ["needsinfo", "actionable"]⟩

/-- An upstream collaborator answering every call with an empty 200. -/
def u0 : Upstream := fun _ => ⟨"", 200, []⟩

/-- An upstream collaborator answering every call with a 304 Not Modified
carrying a caching header. -/
def u304 : Upstream := fun _ => ⟨"cached", 304, [("etag", "abc123")]⟩

/-- Looking a key up after removing it and appending skips the removed part. -/
theorem mdGet_mdRemove_append (d : MultiDict) (k : String) (l : MultiDict) :
    mdGet (mdRemove d k ++ l) k = mdGet l k := by
  induction d with
  | nil => rfl
  | cons kv rest ih =>
    obtain ⟨k', v'⟩ := kv
    by_cases h : k' = k
    · simpa [mdRemove, h] using ih
    · simpa [mdRemove, mdGet, h] using ih

/-- Item assignment stores the assigned value. -/
theorem mdGet_mdSet_self (d : MultiDict) (k : String) (v : PVal) :
    mdGet (mdSet d k v) k = some v := by
  simpa [mdSet, mdGet] using mdGet_mdRemove_append d k [(k, v)]

/-- Looking a key up across an append finds a left value first. -/
theorem mdGet_append (a b : MultiDict) (k : String) :
    mdGet (a ++ b) k = match mdGet a k with
      | some v => some v
      | none => mdGet b k := by
  induction a with
  | nil => rfl
  | cons kv rest ih =>
    obtain ⟨ka, va⟩ := kv
    by_cases hk : ka = k
    · simp [mdGet, hk]
    · simp [mdGet, hk, ih]

/-- Removal of one key leaves the other keys alone. -/
theorem mdGet_mdRemove_ne (d : MultiDict) (k k' : String) (h : k' ≠ k) :
    mdGet (mdRemove d k) k' = mdGet d k' := by
  induction d with
  | nil => rfl
  | cons kv rest ih =>
    obtain ⟨ka, va⟩ := kv
    by_cases hk : ka = k
    · subst hk
      have hkk : ¬(ka = k') := fun hc => h hc.symm
      simp [mdRemove, mdGet, hkk, ih]
    · by_cases hk' : ka = k'
      · simp [mdRemove, mdGet, hk, hk', h]
      · simp [mdRemove, mdGet, hk, hk', h, ih]

/-- Item assignment of one key leaves the other keys alone. -/
theorem mdGet_mdSet_ne (d : MultiDict) (k k' : String) (v : PVal) (h : k' ≠ k) :
    mdGet (mdSet d k v) k' = mdGet d k' := by
  have hkk : ¬(k = k') := fun hc => h hc.symm
  rw [mdSet, mdGet_append, mdGet_mdRemove_ne d k k' h]
  cases mdGet d k' <;> simp [mdGet, hkk]

/-- Split a character list at every space, the way a query string is read as
a sequence of qualifiers. -/
def splitSp : List Char → List (List Char)
  | [] => [[]]
  | c :: cs =>
    if c = ' ' then [] :: splitSp cs
    else (c :: (splitSp cs).headI) :: (splitSp cs).tail

/-- Splitting never produces the empty list of tokens. -/
theorem splitSp_ne_nil (l : List Char) : splitSp l ≠ [] := by
  cases l with
  | nil => simp [splitSp]
  | cons c cs =>
    by_cases h : c = ' ' <;> simp [splitSp, h]

/-- Splitting distributes over a space: the tokens of `a ++ ' ' :: b` are the
tokens of `a` followed by the tokens of `b`. -/
theorem splitSp_append_space (a b : List Char) :
    splitSp (a ++ ' ' :: b) = splitSp a ++ splitSp b := by
  induction a with
  | nil => simp [splitSp]
  | cons c cs ih =>
    by_cases h : c = ' '
    · simp [splitSp, h, ih]
    · cases hsp : splitSp cs with
      | nil => exact absurd hsp (splitSp_ne_nil cs)
      | cons t ts =>
        simp [splitSp, h, ih, hsp, List.append_eq]

/-- A space-free character list is a single token. -/
theorem splitSp_no_space (l : List Char) (h : ' ' ∉ l) : splitSp l = [l] := by
  induction l with
  | nil => rfl
  | cons c cs ih =>
    have hc : ¬(c = ' ') := fun hc => h (hc ▸ List.mem_cons_self c cs)
    have hcs : ' ' ∉ cs := fun hm => h (List.mem_cons_of_mem c hm)
    simp [splitSp, hc, ih hcs]

/-- Number of tokens equal to `tok`. -/
def countTok : List (List Char) → List Char → Nat
  | [], _ => 0
  | t :: ts, tok => (if t = tok then 1 else 0) + countTok ts tok

/-- Token counting distributes over appending. -/
theorem countTok_append (a b : List (List Char)) (tok : List Char) :
    countTok (a ++ b) tok = countTok a tok + countTok b tok := by
  induction a with
  | nil => simp [countTok]
  | cons t ts ih =>
    simp only [List.cons_append, countTok, List.append_eq, ih]
    omega

/-- Number of occurrences of a qualifier token in a query string. -/
def tokenCount (s tok : String) : Nat := countTok (splitSp s.data) tok.data

/-- The search-API query string built by `get_search_results` from a truthy
input query: the repo qualifier and the issue-only qualifier are appended. -/
def searchQ (cfg : Config) (q : String) : String :=
  q ++ " repo:" ++ repoPath cfg ++ " is:issue"

/-- The single outbound call `get_search_results` makes for a truthy query
`q` found in `args`. -/
def searchCall (cfg : Config) (args : MultiDict) (q : String) : ApiCall :=
  ⟨"get", "search/issues",
   mdSet (mdSet args "q" (.str (q ++ " repo:" ++ repoPath cfg))) "q"
     (.str (searchQ cfg q)),
   none, some JSON_MIME_HTML⟩

/-- C1 (code_bug evidence): when the upstream collaborator answers a comments
GET with status 304, the route still returns the HTML-rendered comments with
the single GET call, not the empty body with status 304 and relayed caching
headers: the slice `comments_data[1:2]` is the one-element tuple `(304,)`,
which Python never considers equal to the integer 304, so the not-modified
branch is unreachable. -/
theorem comments_304_renders_html_anyway :
    proxy_comments sampleCfg true Method.get 5 [] "" u304
      = (.htmlComments ⟨"cached", 304, [("etag", "abc123")]⟩,
         [⟨"get", "repos/webcompat/web-bugs/issues/5/comments",
           [("per_page", PVal.int 100)], none, some JSON_MIME_HTML⟩])
  ∧ Response.htmlComments ⟨"cached", 304, [("etag", "abc123")]⟩
      ≠ Response.custom "" 304
          (get_response_headers ⟨"cached", 304, [("etag", "abc123")]⟩ HTML_MIME) :=
  ⟨rfl, by decide⟩

/-- C3 (counterexample): an unauthenticated POST to the comments route does
make an outbound upstream call (a GET), and the response is the rendered
comments rather than any rejection status. -/
theorem unauth_comment_post_makes_call :
    (proxy_comments sampleCfg false Method.post 5 [] "hello" u0).2
      = [⟨"get", "repos/webcompat/web-bugs/issues/5/comments",
          [("per_page", PVal.int 100)], none, some JSON_MIME_HTML⟩]
  ∧ (proxy_comments sampleCfg false Method.post 5 [] "hello" u0).2 ≠ []
  ∧ (proxy_comments sampleCfg false Method.post 5 [] "hello" u0).1
      = .htmlComments ⟨"", 200, []⟩ :=
  ⟨rfl, by decide, rfl⟩

/-- C3 (amended): an unauthenticated POST to the comments route makes no
comment-creating POST call upstream; it falls through to GET semantics and
behaves exactly like the corresponding GET request, whose single outbound call
is a GET with `per_page=100`. -/
theorem unauth_comment_post_get_fallthrough (cfg : Config) (n : Nat)
    (params : MultiDict) (raw : String) (u : Upstream) :
    proxy_comments cfg false Method.post n params raw u
      = proxy_comments cfg false Method.get n params raw u
  ∧ (proxy_comments cfg false Method.post n params raw u).2
      = [⟨"get", commentsPath cfg n, mdUpdate params [("per_page", PVal.int 100)],
          none, some JSON_MIME_HTML⟩] := ⟨rfl, rfl⟩

/-- C4: unauthenticated requests to the private/autoclosed, user-activity,
edit-issue and label-modify routes return 404, 401, 403 and 403 respectively,
each with no outbound upstream call. -/
theorem unauth_rejections (cfg : Config) (params : MultiDict)
    (username parameter : String) (n : Nat) (raw : String) (body : Option Json)
    (u : Upstream) :
    proxy_autoclosed cfg false params u = (.aborted 404, [])
  ∧ get_user_activity_issues cfg false username parameter params u = (.aborted 401, [])
  ∧ edit_issue cfg false n raw body u = (.aborted 403, [])
  ∧ modify_labels cfg false n raw u = (.aborted 403, []) := ⟨rfl, rfl, rfl, rfl⟩

/-- C7: every comments GET request makes exactly one upstream call, and its
parameters carry `per_page=100`, whatever `per_page` the caller supplied. -/
theorem comments_get_per_page_100 (cfg : Config) (auth : Bool) (n : Nat)
    (params : MultiDict) (raw : String) (u : Upstream) :
    (proxy_comments cfg auth Method.get n params raw u).2
      = [⟨"get", commentsPath cfg n, mdUpdate params [("per_page", PVal.int 100)],
          none, some JSON_MIME_HTML⟩]
  ∧ ("per_page", PVal.int 100) ∈ mdUpdate params [("per_page", PVal.int 100)] := by
  refine ⟨rfl, ?_⟩
  simp [mdUpdate]

/-- C2: for an authenticated edit request whose decoded body is an object
containing `milestone` and `state` keys, the body is forwarded in exactly one
upstream PATCH call precisely when the object has exactly two fields and the
decoded pair equals a configured `(milestone id, state)` pair; any such body
failing either condition gets a 403 abort with no upstream call.  The field
keys are distinct, as they are in any dict `json.loads` produces. -/
theorem edit_issue_allowlist (cfg : Config) (n : Nat) (raw : String)
    (fields : List (String × Json)) (m s : Json) (u : Upstream)
    (hnd : (fields.map Prod.fst).Nodup)
    (hm : lookupJ fields "milestone" = some m)
    (hs : lookupJ fields "state" = some s) :
    ((validStatuses cfg).any (statusMatches m s) = true ∧ fields.length = 2 →
       edit_issue cfg true n raw (some (.obj fields)) u
         = (.custom (u (editCall cfg n raw)).content (u (editCall cfg n raw)).status
              [("content-type", JSON_MIME_HTML)], [editCall cfg n raw]))
  ∧ (¬((validStatuses cfg).any (statusMatches m s) = true ∧ fields.length = 2) →
       edit_issue cfg true n raw (some (.obj fields)) u = (.aborted 403, [])) := by
  have hred : edit_issue cfg true n raw (some (.obj fields)) u
      = if (validStatuses cfg).any (statusMatches m s) ∧ fields.length = 2 then
          (.custom (u (editCall cfg n raw)).content (u (editCall cfg n raw)).status
            [("content-type", JSON_MIME_HTML)], [editCall cfg n raw])
        else (.aborted 403, []) := by
    simp only [edit_issue, jsonGetKey, hm, hs, jsonLen, Bool.not_true,
      Bool.false_eq_true, if_false]
  constructor
  · intro hcond
    rw [hred, if_pos ⟨hcond.1, hcond.2⟩]
  · intro hcond
    rw [hred, if_neg (fun hc => hcond ⟨hc.1, hc.2⟩)]

/-- C2 witness: with the sample configuration, the two-field body
`milestone=2, state=open` matches the configured pair and is forwarded in one
PATCH call. -/
theorem edit_issue_allowlist_witness :
    edit_issue sampleCfg true 7 "body"
        (some (.obj [("milestone", Json.num 2), ("state", Json.str "open")])) u0
      = (.custom "" 200 [("content-type", JSON_MIME_HTML)],
         [editCall sampleCfg 7 "body"]) :=
  (edit_issue_allowlist sampleCfg 7 "body"
      [("milestone", Json.num 2), ("state", Json.str "open")]
      (Json.num 2) (Json.str "open") u0 (by decide) rfl rfl).1 ⟨by decide, rfl⟩

/-- C6: category dispatch is driven by the configured names - a configured
open category yields exactly one upstream call with its milestone id added to
the params, the literal `closed` yields exactly one upstream call with
`state=closed`, and any other category aborts with 404 and no upstream call
(`closed` itself not being listed among the open-status names). -/
theorem issue_category_dispatch (cfg : Config) (cat : String)
    (params : MultiDict) (u : Upstream) (i : Int) (st : String)
    (hc : "closed" ∉ cfg.openStatuses) :
    (cat ∈ cfg.openStatuses → statusLookup cfg.statuses cat = some (i, st) →
       get_issue_category cfg cat params u
         = (.plain (u (categoryOpenCall cfg params i)),
            [categoryOpenCall cfg params i]))
  ∧ (cat = "closed" →
       get_issue_category cfg cat params u
         = (.plain (u (categoryClosedCall cfg params)),
            [categoryClosedCall cfg params]))
  ∧ (cat ∉ cfg.openStatuses → cat ≠ "closed" →
       get_issue_category cfg cat params u = (.aborted 404, [])) := by
  refine ⟨?_, ?_, ?_⟩
  · intro hmem hlk
    simp [get_issue_category, hmem, hlk]
  · intro hcat
    subst hcat
    simp [get_issue_category, hc]
  · intro hmem hcat
    simp [get_issue_category, hmem, hcat]

/-- C6 witness: with the sample configuration, `needsinfo` dispatches to one
upstream call carrying its configured milestone id 2. -/
theorem issue_category_dispatch_witness :
    get_issue_category sampleCfg "needsinfo" [] u0
      = (.plain ⟨"", 200, []⟩, [categoryOpenCall sampleCfg [] 2]) :=
  (issue_category_dispatch sampleCfg "needsinfo" [] u0 2 "open" (by decide)).1
    (by decide) rfl

/-- C9 (counterexample): with `parameter = "state"` the caller-named parameter
assignment happens after `state` is forced to `all`, so the single outbound
call carries `state=alice`, and its params do not contain `state=all`. -/
theorem user_activity_state_param_cex :
    get_user_activity_issues sampleCfg true "alice" "state" [] u0
      = (.plain ⟨"", 200, []⟩,
         [⟨"get", "repos/webcompat/web-bugs/issues", [("state", PVal.str "alice")],
           none, none⟩])
  ∧ mdGet [("state", PVal.str "alice")] "state" ≠ some (PVal.str "all") :=
  ⟨rfl, by decide⟩

/-- C9 (amended): unauthenticated callers get 401 with no upstream call; an
authenticated call makes exactly one upstream call whose params force
`state=all` provided `parameter` is not itself `state` (in which case the
username overwrites it), set `labels=status-needsinfo-{username}` when
`parameter` is `needsinfo`, and set `{parameter}={username}` otherwise. -/
theorem user_activity_params (cfg : Config) (username parameter : String)
    (params : MultiDict) (u : Upstream) :
    get_user_activity_issues cfg false username parameter params u = (.aborted 401, [])
  ∧ (get_user_activity_issues cfg true username parameter params u).2
      = [⟨"get", "repos/" ++ cfg.issuesPath, uaParams username parameter params,
          none, none⟩]
  ∧ (parameter ≠ "state" →
       mdGet (uaParams username parameter params) "state" = some (PVal.str "all"))
  ∧ (parameter = "needsinfo" →
       mdGet (uaParams username parameter params) "labels"
         = some (PVal.str ("status-needsinfo-" ++ username)))
  ∧ (parameter ≠ "needsinfo" →
       mdGet (uaParams username parameter params) parameter
         = some (PVal.str username)) := by
  refine ⟨rfl, rfl, ?_, ?_, ?_⟩
  · intro hp
    by_cases hn : parameter = "needsinfo"
    · rw [uaParams, if_pos hn,
        mdGet_mdSet_ne _ _ _ _ (by decide), mdGet_mdSet_self]
    · rw [uaParams, if_neg hn,
        mdGet_mdSet_ne _ _ _ _ (fun hcx => hp hcx.symm), mdGet_mdSet_self]
  · intro hn
    rw [uaParams, if_pos hn, mdGet_mdSet_self]
  · intro hn
    rw [uaParams, if_neg hn, mdGet_mdSet_self]

/-- C9 witness: for the ordinary parameter `creator`, the outbound params hold
`state=all` and `creator=alice`. -/
theorem user_activity_params_witness :
    mdGet (uaParams "alice" "creator" []) "state" = some (PVal.str "all")
  ∧ mdGet (uaParams "alice" "creator" []) "creator" = some (PVal.str "alice") :=
  ⟨(user_activity_params sampleCfg "alice" "creator" [] u0).2.2.1 (by decide),
   (user_activity_params sampleCfg "alice" "creator" [] u0).2.2.2.2 (by decide)⟩

/-- C10: an authenticated edit request whose decoded body lacks the
`milestone` key or the `state` key (or is not an object at all) escapes with
the uncaught lookup error before the allow-list check: no upstream call is
made and the result is not the 403 Forbidden response. -/
theorem edit_issue_missing_key_raises (cfg : Config) (n : Nat) (raw : String)
    (j : Json) (u : Upstream)
    (h : jsonGetKey j "milestone" = none ∨ jsonGetKey j "state" = none) :
    edit_issue cfg true n raw (some j) u = (.raised "KeyError/TypeError", [])
  ∧ (Response.raised "KeyError/TypeError" ≠ Response.aborted 403) := by
  refine ⟨?_, by decide⟩
  rcases h with h | h
  · simp [edit_issue, h]
  · cases hm : jsonGetKey j "milestone" with
    | none => simp [edit_issue, hm]
    | some m => simp [edit_issue, hm, h]

/-- C10 witness: a valid two-key-free body missing `state` raises instead of
returning 403. -/
theorem edit_issue_missing_key_raises_witness :
    edit_issue sampleCfg true 1 "x" (some (.obj [("milestone", Json.num 2)])) u0
      = (.raised "KeyError/TypeError", []) :=
  (edit_issue_missing_key_raises sampleCfg 1 "x"
     (.obj [("milestone", Json.num 2)]) u0 (Or.inr rfl)).1

/-- The characters of the built search query: the input, a space, the repo
qualifier, a space, the issue-only qualifier. -/
theorem searchQ_data (cfg : Config) (q : String) :
    (searchQ cfg q).data
      = q.data ++ ' ' :: (("repo:" ++ repoPath cfg).data ++ ' ' :: "is:issue".data) := by
  have h1 : " repo:".data = ' ' :: "repo:".data := rfl
  have h2 : " is:issue".data = ' ' :: "is:issue".data := rfl
  simp [searchQ, String.data_append, h1, h2, List.append_assoc]

/-- Tokens of the built query: the tokens of the input followed by exactly one
repo qualifier and one issue-only qualifier, provided the configured repo path
contains no space. -/
theorem searchQ_tokens (cfg : Config) (q : String)
    (hr : ' ' ∉ (repoPath cfg).data) :
    splitSp (searchQ cfg q).data
      = splitSp q.data ++ [("repo:" ++ repoPath cfg).data, "is:issue".data] := by
  have hrd : ' ' ∉ ("repo:" ++ repoPath cfg).data := by
    rw [String.data_append]
    intro hmem
    rcases List.mem_append.mp hmem with h | h
    · exact absurd h (by decide)
    · exact hr h
  have hisd : ' ' ∉ "is:issue".data := by decide
  rw [searchQ_data, splitSp_append_space, splitSp_append_space,
    splitSp_no_space _ hrd, splitSp_no_space _ hisd]
  rfl

/-- Counting over a two-token list. -/
theorem countTok_two (x y tok : List Char) :
    countTok [x, y] tok
      = (if x = tok then 1 else 0) + (if y = tok then 1 else 0) := by
  simp [countTok]

/-- Reduction of `get_search_results` on the direct route with a truthy query
in the request args. -/
theorem get_search_results_reduce (cfg : Config) (args : MultiDict) (q : String)
    (u : Upstream) (hq : mdGetStr args "q" = some q) (hq0 : q ≠ "") :
    get_search_results cfg none none args u
      = (.plain (u (searchCall cfg args q)), [searchCall cfg args q]) := by
  have hscr : (strTruthy none).orElse
      (fun _ => strTruthy (mdGetStr (effectiveParams none args) "q")) = some q := by
    simp [strTruthy, effectiveParams, hq, hq0]
  simp only [get_search_results, hscr]
  simp [searchCall, searchQ, normalize_api_params, effectiveParams,
    mdGetStr, mdGet_mdSet_self]

/-- Every outbound call of `get_search_results` goes to the search path. -/
theorem get_search_results_calls (cfg : Config) (qs : Option String)
    (p0 : Option MultiDict) (args : MultiDict) (u : Upstream) (c : ApiCall)
    (hc : c ∈ (get_search_results cfg qs p0 args u).2) :
    c.path = "search/issues" := by
  simp only [get_search_results] at hc
  cases hm : (strTruthy qs).orElse
      (fun _ => strTruthy (mdGetStr (effectiveParams p0 args) "q")) with
  | none =>
    rw [hm] at hc
    simp at hc
  | some q0 =>
    rw [hm] at hc
    simp at hc
    subst hc
    rfl

/-- C5 (counterexample): with input query `is:issue` the outbound search query
string contains the `is:issue` qualifier twice, not exactly once. -/
theorem search_query_double_qualifier_cex :
    (get_search_results sampleCfg none none [("q", PVal.str "is:issue")] u0).2
      = [⟨"get", "search/issues",
          [("q", PVal.str "is:issue repo:webcompat/web-bugs is:issue")],
          none, some JSON_MIME_HTML⟩]
  ∧ tokenCount "is:issue repo:webcompat/web-bugs is:issue" "is:issue" = 2 :=
  ⟨rfl, rfl⟩

/-- C5 (amended): for a truthy query and a space-free configured repo path,
the single outbound search call carries the input query with one repo
qualifier and one issue-only qualifier appended at the end; each therefore
occurs exactly once whenever the input query contained neither token, while
occurrences already inside the input are kept, not deduplicated. -/
theorem search_query_qualifiers (cfg : Config) (args : MultiDict) (q : String)
    (u : Upstream) (hq : mdGetStr args "q" = some q) (hq0 : q ≠ "")
    (hr : ' ' ∉ (repoPath cfg).data) :
    (get_search_results cfg none none args u).2 = [searchCall cfg args q]
  ∧ mdGetStr (searchCall cfg args q).params "q" = some (searchQ cfg q)
  ∧ splitSp (searchQ cfg q).data
      = splitSp q.data ++ [("repo:" ++ repoPath cfg).data, "is:issue".data]
  ∧ (tokenCount q "is:issue" = 0 → tokenCount (searchQ cfg q) "is:issue" = 1)
  ∧ (tokenCount q ("repo:" ++ repoPath cfg) = 0 →
       tokenCount (searchQ cfg q) ("repo:" ++ repoPath cfg) = 1) := by
  have hne : ("repo:" ++ repoPath cfg).data ≠ "is:issue".data := by
    intro hcc
    have hhd := congrArg List.head? hcc
    rw [String.data_append] at hhd
    have h1 : ("repo:".data ++ (repoPath cfg).data).head? = some 'r' := rfl
    have h2 : "is:issue".data.head? = some 'i' := rfl
    rw [h1, h2] at hhd
    exact absurd hhd (by decide)
  have hne' : "is:issue".data ≠ ("repo:" ++ repoPath cfg).data := Ne.symm hne
  have htok := searchQ_tokens cfg q hr
  refine ⟨?_, ?_, htok, ?_, ?_⟩
  · rw [get_search_results_reduce cfg args q u hq hq0]
  · simp [searchCall, mdGetStr, mdGet_mdSet_self]
  · intro h0
    unfold tokenCount at h0 ⊢
    rw [htok, countTok_append, countTok_two, h0]
    simp [hne]
  · intro h0
    unfold tokenCount at h0 ⊢
    rw [htok, countTok_append, countTok_two, h0]
    simp [hne']

/-- C5 witness: for input query `foo` under the sample configuration, each
qualifier occurs exactly once in the built query string. -/
theorem search_query_qualifiers_witness :
    tokenCount (searchQ sampleCfg "foo") "is:issue" = 1
  ∧ tokenCount (searchQ sampleCfg "foo") ("repo:" ++ repoPath sampleCfg) = 1 :=
  ⟨(search_query_qualifiers sampleCfg [("q", PVal.str "foo")] "foo" u0 rfl
      (by decide) (by decide)).2.2.2.1 rfl,
   (search_query_qualifiers sampleCfg [("q", PVal.str "foo")] "foo" u0 rfl
      (by decide) (by decide)).2.2.2.2 rfl⟩

/-- C8 (counterexample): a request carrying a `q` parameter with the empty
value is not rejected for an unauthenticated caller - the route falls through
to the issues-list passthrough and makes that upstream call. -/
theorem issues_empty_q_cex :
    proxy_issues sampleCfg false [("q", PVal.str "")] u0
      = (.plain ⟨"", 200, []⟩,
         [⟨"get", "repos/webcompat/web-bugs/issues", [("q", PVal.str "")],
           none, none⟩])
  ∧ proxy_issues sampleCfg false [("q", PVal.str "")] u0 ≠ (.aborted 404, []) :=
  ⟨rfl, by decide⟩

/-- C8 (amended): for a request whose `q` parameter is truthy (present with a
non-empty value), an authenticated caller is delegated to the search operation
on that `q` value and every outbound call goes to the search path, never the
issues list, while an unauthenticated caller gets 404 with no upstream call;
a request with no truthy `q` (absent or empty) is passed through to exactly
one issues-list call. -/
theorem proxy_issues_dispatch (cfg : Config) (params : MultiDict) (u : Upstream) :
    (pvTruthy (mdGet params "q") = true →
       proxy_issues cfg true params u
           = get_search_results cfg (mdGetStr params "q") (some params) params u
       ∧ (∀ c, c ∈ (proxy_issues cfg true params u).2 → c.path = "search/issues")
       ∧ proxy_issues cfg false params u = (.aborted 404, []))
  ∧ (pvTruthy (mdGet params "q") = false → ∀ auth,
       proxy_issues cfg auth params u
         = (.plain (u ⟨"get", "repos/" ++ cfg.issuesPath, params, none, none⟩),
            [⟨"get", "repos/" ++ cfg.issuesPath, params, none, none⟩])) := by
  constructor
  · intro ht
    have h1 : proxy_issues cfg true params u
        = get_search_results cfg (mdGetStr params "q") (some params) params u := by
      simp [proxy_issues, ht]
    refine ⟨h1, ?_, ?_⟩
    · intro c hcall
      rw [h1] at hcall
      exact get_search_results_calls cfg _ _ _ u c hcall
    · simp [proxy_issues, ht]
  · intro hf auth
    simp [proxy_issues, hf]

/-- C8 witness: with the truthy query `foo`, the authenticated request is
delegated to search and the unauthenticated request is rejected with 404. -/
theorem proxy_issues_dispatch_witness :
    proxy_issues sampleCfg true [("q", PVal.str "foo")] u0
      = get_search_results sampleCfg (some "foo") (some [("q", PVal.str "foo")])
          [("q", PVal.str "foo")] u0
  ∧ proxy_issues sampleCfg false [("q", PVal.str "foo")] u0 = (.aborted 404, []) := by
  have h := (proxy_issues_dispatch sampleCfg [("q", PVal.str "foo")] u0).1 rfl
  exact ⟨h.1, h.2.2⟩
